import Mathlib

/-!
Verification of the NeoKPI S3 presigner server (src/scripts/s3-presigner.py).

The development shallowly embeds the request handler `S3PresignerHandler`:
the URL parsing logic of `generate_presigned_url_from_s3_url` (lines
266-282) is translated directly; the external collaborators (the Python
stdlib `urlparse`, `json.loads`, `bytes.decode`, and the boto3 signing
call) are modelled as documented definitions or oracle parameters.
Handlers are modelled as functions from request data to the list of
response events they emit (`send_response`, `send_header`,
`end_headers`, `wfile.write`) together with the list of calls made to
the signing delegate.
-/

/-- JSON values, as produced by the Python `json` module and written back
with `json.dumps`.  Floating point timing values are abstracted: the
`processing_time_ms` entry is modelled by an opaque numeric parameter. -/
inductive Json where
  | null : Json
  | bool (b : Bool) : Json
  | num (n : Int) : Json
  | str (s : String) : Json
  | arr (elems : List Json) : Json
  | obj (fields : List (String × Json)) : Json

/-- Failure modes of the boto3 signing call, as distinguished by the
`except` clauses of `generate_presigned_url_from_s3_url` (lines 302-307):
`botocore.exceptions.NoCredentialsError`, `botocore.exceptions.ClientError`,
and any other exception. -/
inductive SignErr where
  | noCredentials : SignErr
  | clientError (msg : String) : SignErr
  | otherError (msg : String) : SignErr

/-- One invocation of the signing delegate
`s3_client.generate_presigned_url` (lines 292-296): the `Bucket` and `Key`
parameters and the `ExpiresIn` argument (passed through unchanged from the
request, hence a `Json` value). -/
structure SignCall where
  bucket : String
  key : String
  expiresArg : Json

/-- The signing delegate: given bucket, key and the `ExpiresIn` argument it
returns a presigned URL string or fails.  It is an external collaborator
(boto3), so it is a parameter of the model. -/
abbrev SignFn := String → String → Json → Except SignErr String

/-- The parse failures of `generate_presigned_url_from_s3_url`: the two
`ValueError`s it raises itself on line 279 (`Unrecognized S3 URL format`)
and line 282 (`Could not extract bucket and key from URL`), and the
`ValueError` that `urlparse` itself can raise on line 266 (for bracketed
hosts, e.g. `Invalid IPv6 URL` on an unmatched bracket).  All carry the
offending URL. -/
inductive ParseError where
  | unrecognizedFormat (url : String) : ParseError
  | incompleteReference (url : String) : ParseError
  | stdlibValueError (url : String) : ParseError
deriving DecidableEq

/-- The message text of the `ValueError` for each parse failure (lines 279
and 282).  The text of the `ValueError` raised inside `urlparse` depends
on the host and the interpreter version; `Invalid IPv6 URL` (the
unmatched-bracket message) stands for it here, and no claim rests on this
text. -/
def ParseError.message : ParseError → String
  | .unrecognizedFormat url => "Unrecognized S3 URL format: " ++ url
  | .incompleteReference url => "Could not extract bucket and key from URL: " ++ url
  | .stdlibValueError _ => "Invalid IPv6 URL"

/-- Split a character list at the first occurrence of the (nonempty)
pattern `sep`, returning the part before the occurrence and the part after
it.  `none` means `sep` does not occur.  This models the Python operations
`sep in s` (the result is `some`) and `s.split(sep)[0]` / `s.split(c, 1)`
(the components of the result). -/
def splitAtSub (sep : List Char) : List Char → Option (List Char × List Char)
  | [] => none
  | c :: rest =>
    if sep.isPrefixOf (c :: rest) then some ([], (c :: rest).drop sep.length)
    else (splitAtSub sep rest).map (fun p => (c :: p.1, p.2))

/-- The virtual-hosted-style suffix tested on line 269. -/
def s3Suffix : List Char := ".s3.amazonaws.com".data

/-- The bare path-style endpoint compared on line 273. -/
def bareHost : List Char := "s3.amazonaws.com".data

/-- Characters that terminate the netloc of a URL in the Python stdlib
`urlsplit` (the first of `/`, `?`, `#` after the `//`). -/
def netlocEnd (c : Char) : Bool := c == '/' || c == '?' || c == '#'

/-- Characters that terminate the path of a URL (start of query or
fragment). -/
def pathEnd (c : Char) : Bool := c == '?' || c == '#'

/-- Characters allowed in a URL scheme by the Python stdlib `urlsplit`. -/
def schemeChar (c : Char) : Bool := c.isAlphanum || c == '+' || c == '-' || c == '.'

/-- Modelled from the Python stdlib: the input sanitization of `urlsplit`.
Leading C0 control characters and spaces are stripped
(`_WHATWG_C0_CONTROL_OR_SPACE`), and every tab, carriage return and line
feed is removed (`_UNSAFE_URL_BYTES_TO_REMOVE`). -/
def urlSanitize (cs : List Char) : List Char :=
  (cs.dropWhile (fun c => decide (c.toNat ≤ 32))).filter
    (fun c => !(c == '\t' || c == '\r' || c == '\n'))

/-- Modelled from the Python stdlib: the scheme recognition of `urlsplit`.
When the text before the first colon is a nonempty run of scheme
characters starting with an ASCII letter, it is the scheme (lowercased,
as the stdlib stores it); otherwise the scheme is empty and the whole
input remains. -/
def splitScheme (cs : List Char) : List Char × List Char :=
  match splitAtSub [':'] cs with
  | some (pre, post) =>
      if !pre.isEmpty && pre.all schemeChar && (pre.headD ' ').isAlpha then
        (pre.map Char.toLower, post)
      else ([], cs)
  | none => ([], cs)

/-- The schemes for which `urlparse` splits `;params` off the last path
segment (`uses_params` of the stdlib, the empty scheme included). -/
def usesParamsList : List (List Char) :=
  [[], "ftp".data, "hdl".data, "prospero".data, "http".data, "imap".data,
   "https".data, "shttp".data, "rtsp".data, "rtspu".data, "sip".data,
   "sips".data, "mms".data, "sftp".data, "tel".data]

/-- Whether the (lowercased) scheme takes part in params splitting. -/
def usesParams (scheme : List Char) : Bool := usesParamsList.contains scheme

/-- Modelled from the Python stdlib: `_splitparams`, as applied by
`urlparse`.  The first `;` of the last path segment starts the params,
which are dropped from the path; a `;` in an earlier segment is kept.
When the path has no `/` the split is at the first `;` of the whole
path. -/
def splitparams (path : List Char) : List Char :=
  let revp := path.reverse
  let lastseg := (revp.takeWhile (fun c => !(c == '/'))).reverse
  let front := (revp.dropWhile (fun c => !(c == '/'))).reverse
  if front.isEmpty then path.takeWhile (fun c => !(c == ';'))
  else if lastseg.contains ';' then front ++ lastseg.takeWhile (fun c => !(c == ';'))
  else path

/-- Modelled from the Python stdlib: `urllib.parse.urlparse`, restricted
to the two attributes the source reads (`netloc` and `path`).  The input
is sanitized, the scheme split off; if the remainder starts with `//`,
the netloc runs to the first of `/ ? #` and the path from there to the
start of the query or fragment, and `;params` are split off the last
path segment when the scheme takes params.  A netloc containing `[` or
`]` is outside the modelled fragment (`none`): the stdlib validates
bracketed hosts, raising `ValueError` (`Invalid IPv6 URL`) on an
unmatched bracket and, in recent versions, on an invalid bracketed
address; no claim concerns such hosts. -/
def urlparseCore (cs0 : List Char) : Option (List Char × List Char) :=
  let cs := urlSanitize cs0
  let sp := splitScheme cs
  match sp.2 with
  | '/' :: '/' :: r =>
      let netloc := r.takeWhile (fun c => !netlocEnd c)
      if netloc.contains '[' || netloc.contains ']' then none
      else
        let path0 := (r.dropWhile (fun c => !netlocEnd c)).takeWhile (fun c => !pathEnd c)
        some (netloc, if usesParams sp.1 then splitparams path0 else path0)
  | rest =>
      let path0 := rest.takeWhile (fun c => !pathEnd c)
      some ([], if usesParams sp.1 then splitparams path0 else path0)

/-- The `netloc` and `path` attributes of `urlparse(s3_url)` (line 266);
`none` when the stdlib call is outside the modelled fragment (it raises
or may raise a `ValueError` there). -/
def urlparseModel (s : String) : Option (List Char × List Char) := urlparseCore s.data

/-- The URL-to-(bucket, key) logic of `generate_presigned_url_from_s3_url`
on the already-parsed netloc and path (lines 269-282):
if `'.s3.amazonaws.com' in netloc`, the bucket is
`netloc.split('.s3.amazonaws.com')[0]` and the key is
`path.lstrip('/')`; otherwise, if the netloc is exactly
`s3.amazonaws.com`, the stripped path is split on the first `/` into
bucket and key (the key defaulting to empty); otherwise the URL format is
unrecognized.  An empty bucket or key is an incomplete reference
(line 281). -/
def parseS3Core (s3_url : String) (netloc path : List Char) :
    Except ParseError (List Char × List Char) :=
  match splitAtSub s3Suffix netloc with
  | some (bucket, _) =>
      let key := path.dropWhile (fun c => c == '/')
      if bucket.isEmpty || key.isEmpty then .error (.incompleteReference s3_url)
      else .ok (bucket, key)
  | none =>
      if netloc = bareHost then
        let stripped := path.dropWhile (fun c => c == '/')
        let path_parts := splitAtSub ['/'] stripped
        let bucket := match path_parts with | some (b, _) => b | none => stripped
        let key := match path_parts with | some (_, k) => k | none => []
        if bucket.isEmpty || key.isEmpty then .error (.incompleteReference s3_url)
        else .ok (bucket, key)
      else .error (.unrecognizedFormat s3_url)

/-- The pure URL parsing portion of `generate_presigned_url_from_s3_url`
(lines 266-282): run `urlparse`, then extract bucket and key or fail.
When `urlparse` is outside the modelled fragment (bracketed host) the
result is the stdlib `ValueError`, which the code catches like its own
`ValueError`s. -/
def parseS3Url (s3_url : String) : Except ParseError (String × String) :=
  match urlparseModel s3_url with
  | none => .error (.stdlibValueError s3_url)
  | some (netloc, path) =>
    match parseS3Core s3_url netloc path with
    | .ok (bucket, key) => .ok (String.mk bucket, String.mk key)
    | .error e => .error e

/-- Continuation byte of a UTF-8 sequence (`0x80`-`0xBF`). -/
def utf8Cont (b : Nat) : Bool := 128 ≤ b && b ≤ 191

/-- Allowed range of the second byte of a three-byte UTF-8 sequence, which
depends on the lead byte (excluding overlong encodings and surrogates,
as the strict Python decoder does). -/
def utf8Cont3 (b1 b2 : Nat) : Bool :=
  if b1 = 224 then 160 ≤ b2 && b2 ≤ 191
  else if b1 = 237 then 128 ≤ b2 && b2 ≤ 159
  else utf8Cont b2

/-- Allowed range of the second byte of a four-byte UTF-8 sequence, which
depends on the lead byte (excluding overlong encodings and code points
above U+10FFFF). -/
def utf8Cont4 (b1 b2 : Nat) : Bool :=
  if b1 = 240 then 144 ≤ b2 && b2 ≤ 191
  else if b1 = 244 then 128 ≤ b2 && b2 ≤ 143
  else utf8Cont b2

/-- One step of UTF-8 decoding: the code point encoded at the head of the
byte list together with the number of bytes it occupies, or `none` when
the head does not start a valid sequence (following the strict stdlib
decoder: no overlong encodings, no surrogates, nothing above U+10FFFF). -/
def utf8Step1 : List Nat → Option (Nat × Nat)
  | [] => none
  | b1 :: rest =>
    if b1 < 128 then some (b1, 1)
    else if 194 ≤ b1 && b1 ≤ 223 then
      match rest with
      | b2 :: _ => if utf8Cont b2 then some ((b1 - 192) * 64 + (b2 - 128), 2) else none
      | [] => none
    else if 224 ≤ b1 && b1 ≤ 239 then
      match rest with
      | b2 :: b3 :: _ =>
        if utf8Cont3 b1 b2 && utf8Cont b3 then
          some ((b1 - 224) * 4096 + (b2 - 128) * 64 + (b3 - 128), 3)
        else none
      | _ => none
    else if 240 ≤ b1 && b1 ≤ 244 then
      match rest with
      | b2 :: b3 :: b4 :: _ =>
        if utf8Cont4 b1 b2 && utf8Cont b3 && utf8Cont b4 then
          some ((b1 - 240) * 262144 + (b2 - 128) * 4096 + (b3 - 128) * 64 + (b4 - 128), 4)
        else none
      | _ => none
    else none

/-- Modelled from the Python stdlib: strict UTF-8 decoding of a byte list
to a list of code points, as performed by `bytes.decode('utf-8')`
(line 197).  `none` corresponds to a `UnicodeDecodeError`. -/
def utf8DecodeAux : List Nat → Option (List Nat)
  | [] => some []
  | b1 :: rest =>
    match utf8Step1 (b1 :: rest) with
    | some (c, k) => (utf8DecodeAux (rest.drop (k - 1))).map (fun cs => c :: cs)
    | none => none
termination_by l => l.length
decreasing_by
  simp [List.length_drop]
  omega

/-- Modelled from the Python stdlib: UTF-8 decoding with `errors='ignore'`
(line 203): bytes that do not start a valid sequence are skipped instead
of failing.  On input that strict decoding accepts it returns the same
code points. -/
def utf8IgnoreAux : List Nat → List Nat
  | [] => []
  | b1 :: rest =>
    match utf8Step1 (b1 :: rest) with
    | some (c, k) => c :: utf8IgnoreAux (rest.drop (k - 1))
    | none => utf8IgnoreAux rest
termination_by l => l.length
decreasing_by
  all_goals simp [List.length_drop]
  omega

/-- Strict decoding of the raw request body, as a string
(`raw_post_data.decode('utf-8')`, line 197). -/
def utf8Decode (bs : List Nat) : Option String :=
  (utf8DecodeAux bs).map (fun cps => String.mk (cps.map Char.ofNat))

/-- Lossy decoding of the raw request body
(`raw_post_data.decode('utf-8', errors='ignore')`, line 203). -/
def utf8DecodeIgnore (bs : List Nat) : String :=
  String.mk ((utf8IgnoreAux bs).map Char.ofNat)

/-- A response-side action of the handler: `send_response`, `send_header`,
`end_headers`, or `wfile.write` of a JSON body.  A handler run is the list
of such actions in the order the code performs them (the `send_response`
calls of `BaseHTTPRequestHandler` also emit Server and Date headers; those
are transport boilerplate and are not modelled). -/
inductive Event where
  | sendResponse (code : Nat) : Event
  | sendHeader (name value : String) : Event
  | endHeaders : Event
  | write (body : Json) : Event

/-- The `Content-Type: application/json` header. -/
def jsonHeader : Event := .sendHeader "Content-Type" "application/json"

/-- The permissive CORS header sent with every response. -/
def corsHeader : Event := .sendHeader "Access-Control-Allow-Origin" "*"

/-- The events emitted at the top of `do_GET` and `do_POST`
(lines 127-130 and 184-187): a 200 status, the JSON content type, the
CORS header, and the end of the header block. -/
def okHead : List Event :=
  [.sendResponse 200, jsonHeader, corsHeader, .endHeaders]

/-- The events of the generic `except` branch of `do_GET` and `do_POST`
(lines 154-168 and 234-248): a 500 status, headers, and the JSON error
body with `error`, `status` and `processing_time_ms`. -/
def err500Events (msg : String) (ptime : Nat) : List Event :=
  [.sendResponse 500, jsonHeader, corsHeader, .endHeaders,
   .write (Json.obj
     [("error", Json.str msg),
      ("status", Json.str "error"),
      ("processing_time_ms", Json.num ptime)])]

/-- `do_OPTIONS` (lines 102-110): CORS preflight response with permissive
headers and no body. -/
def do_OPTIONS : List Event :=
  [.sendResponse 200,
   .sendHeader "Access-Control-Allow-Origin" "*",
   .sendHeader "Access-Control-Allow-Methods" "GET, POST, OPTIONS",
   .sendHeader "Access-Control-Allow-Headers" "Content-Type",
   .endHeaders]

/-- Dictionary lookup in the `parse_qs` result: `'url' in query_params`
and `query_params['url']` (lines 132 and 141). -/
def lookupQ (qp : List (String × List String)) (k : String) : Option (List String) :=
  match qp.find? (fun p => p.1 == k) with
  | some p => some p.2
  | none => none

/-- Modelled from the Python runtime: the `TypeError` message produced by
`int(None)` when the Content-Length header is absent (line 190). -/
def intNoneTypeErrorMsg : String :=
  "int() argument must be a string, a bytes-like object or a real number, not NoneType"

/-- Modelled from the Python runtime: the `UnicodeDecodeError` message of
`bytes.decode('utf-8')` on invalid input (line 197); the byte and position
details of the real message are abstracted. -/
def unicodeDecodeErrorMsg : String :=
  "utf-8 codec cannot decode byte: invalid start byte"

/-- Modelled from the Python runtime: the `TypeError` raised by
`urlparse` when given a non-string value from the JSON body. -/
def urlparseTypeErrorMsg : String :=
  "Cannot mix str and non-str arguments"

/-- Modelled from the Python runtime: the message of the `TypeError`
raised by `'url' in request_data` when the parsed JSON is not a
container (line 209). -/
def containsTypeErrorMsg : String :=
  "argument of type int, float, bool or NoneType is not iterable"

/-- Modelled from the Python runtime: the message of the `TypeError`
raised by `request_data['url']` when the parsed JSON is a string or a
list (line 219). -/
def subscriptTypeErrorMsg : String :=
  "indices must be integers"

/-- Surrounding-whitespace strip on a character list, as `int()` applies
to its string argument. -/
def pyStrip (cs : List Char) : List Char :=
  ((cs.dropWhile Char.isWhitespace).reverse.dropWhile Char.isWhitespace).reverse

/-- Modelled from the Python stdlib: `int(x)` applied to the result of a
header lookup (line 190).  A missing header gives `None`, hence a
`TypeError`; a present header is parsed as an optionally signed decimal
integer after stripping surrounding whitespace, raising `ValueError`
otherwise. -/
def pyIntOfHeader : Option String → Except String Int
  | none => .error intNoneTypeErrorMsg
  | some s =>
    let cs := pyStrip s.data
    let signAndDigits : Int × List Char :=
      match cs with
      | '-' :: ds => (-1, ds)
      | '+' :: ds => (1, ds)
      | _ => (1, cs)
    if !signAndDigits.2.isEmpty && signAndDigits.2.all Char.isDigit then
      .ok (signAndDigits.1 *
        Int.ofNat (signAndDigits.2.foldl (fun a c => a * 10 + (c.toNat - 48)) 0))
    else .error ("invalid literal for int() with base 10: " ++ s)

/-- Modelled from the Python stdlib: `self.rfile.read(n)` over a request
whose body bytes are `body` (line 191): a negative count reads everything,
otherwise at most `n` bytes are returned. -/
def readBody (body : List Nat) (n : Int) : List Nat :=
  if n < 0 then body else body.take n.toNat

mutual

/-- Structural equality of JSON values, modelling the Python `==` used by
`in` on lists.  (Python dict equality ignores key order; JSON objects
decoded by `json.loads` are compared here field-by-field in order, which
agrees on identically-ordered objects.) -/
def jsonBeq : Json → Json → Bool
  | Json.null, Json.null => true
  | Json.bool a, Json.bool b => a == b
  | Json.num a, Json.num b => a == b
  | Json.str a, Json.str b => a == b
  | Json.arr a, Json.arr b => jsonListBeq a b
  | Json.obj a, Json.obj b => jsonFieldsBeq a b
  | _, _ => false

/-- Elementwise `jsonBeq` on lists. -/
def jsonListBeq : List Json → List Json → Bool
  | [], [] => true
  | a :: as, b :: bs => jsonBeq a b && jsonListBeq as bs
  | _, _ => false

/-- Elementwise `jsonBeq` on object fields. -/
def jsonFieldsBeq : List (String × Json) → List (String × Json) → Bool
  | [], [] => true
  | (k1, v1) :: as, (k2, v2) :: bs => k1 == k2 && jsonBeq v1 v2 && jsonFieldsBeq as bs
  | _, _ => false

end

/-- Python `needle in haystack` on strings: substring membership. -/
def strContainsSub (haystack needle : String) : Bool :=
  needle.isEmpty || (splitAtSub needle.data haystack.data).isSome

/-- Python `'url' in request_data` (line 209) on the value returned by
`json.loads`: key membership for a dict, element membership for a list
(`==` being `jsonBeq`), substring membership for a string, and a
`TypeError` for the remaining JSON values. -/
def pyContainsKey (j : Json) (k : String) : Except String Bool :=
  match j with
  | Json.obj fields => .ok (fields.any (fun f => f.1 == k))
  | Json.arr elems => .ok (elems.any (fun e => jsonBeq e (Json.str k)))
  | Json.str s => .ok (strContainsSub s k)
  | _ => .error containsTypeErrorMsg

/-- Python `request_data['url']` (line 219): dict lookup for a dict, and a
`TypeError` for a string or list subscripted with a string key.  (The
non-container cases cannot be reached after a successful `in` check.) -/
def pySubscript (j : Json) (k : String) : Except String Json :=
  match j with
  | Json.obj fields =>
    match fields.find? (fun f => f.1 == k) with
    | some f => .ok f.2
    | none => .error ("KeyError: " ++ k)
  | _ => .error subscriptTypeErrorMsg

/-- Python `request_data.get('expires_in', 3600)` (line 220): dict lookup
with a default.  (Only reached when `request_data` is a dict.) -/
def pyGetDefault (j : Json) (k : String) (d : Json) : Json :=
  match j with
  | Json.obj fields =>
    match fields.find? (fun f => f.1 == k) with
    | some f => f.2
    | none => d
  | _ => d

/-- `generate_presigned_url_from_s3_url` (lines 254-307): parse the URL
into bucket and key, then call the signing delegate; every failure is
re-raised as a generic exception whose message is returned in the error
case.  The second component records the calls made to the delegate.  The
URL argument is the JSON value taken from the request (`urlparse` raises
a `TypeError`, caught by the generic `except` on line 306, when it is not
a string). -/
def generate_presigned_url_from_s3_url (sign : SignFn) (urlJson : Json)
    (expires : Json) : Except String String × List SignCall :=
  match urlJson with
  | Json.str s3_url =>
    match parseS3Url s3_url with
    | .error e => (.error ("Error generating presigned URL: " ++ e.message), [])
    | .ok (bucket, key) =>
      match sign bucket key expires with
      | .ok url => (.ok url, [⟨bucket, key, expires⟩])
      | .error .noCredentials =>
          (.error "AWS credentials not found. Please configure your AWS credentials.",
           [⟨bucket, key, expires⟩])
      | .error (.clientError m) =>
          (.error ("AWS client error: " ++ m), [⟨bucket, key, expires⟩])
      | .error (.otherError m) =>
          (.error ("Error generating presigned URL: " ++ m), [⟨bucket, key, expires⟩])
  | _ => (.error ("Error generating presigned URL: " ++ urlparseTypeErrorMsg), [])

/-- `do_GET` (lines 112-171).  The query parameters are the `parse_qs`
result for the request path (query parsing itself is stdlib and cannot
fail on a string); `ptime` abstracts the measured processing time.  The
result is the list of emitted response events and the list of signing
delegate calls. -/
def do_GET (sign : SignFn) (ptime : Nat) (query_params : List (String × List String)) :
    List Event × List SignCall :=
  match lookupQ query_params "url" with
  | none =>
      (okHead ++
       [.write (Json.obj
         [("error", Json.str "Missing url parameter"),
          ("usage", Json.str "GET /?url=https://fleetdata-production.s3.amazonaws.com/...")])],
       [])
  | some vs =>
    match vs with
    | [] =>
        -- query_params['url'][0] on an empty list raises IndexError,
        -- reaching the generic handler (parse_qs never produces this).
        (okHead ++ err500Events "list index out of range" ptime, [])
    | s3_url :: _ =>
      match generate_presigned_url_from_s3_url sign (Json.str s3_url) (Json.num 3600) with
      | (.ok presigned, calls) =>
          (okHead ++
           [.write (Json.obj
             [("original_url", Json.str s3_url),
              ("presigned_url", Json.str presigned),
              ("expires_in", Json.num 3600),
              ("status", Json.str "success"),
              ("processing_time_ms", Json.num ptime)])],
           calls)
      | (.error e, calls) => (okHead ++ err500Events e ptime, calls)

/-- The error body written for an unparsable JSON request body
(lines 200-204). -/
def invalidJsonBody (details : String) (raw : List Nat) : Json :=
  Json.obj
    [("error", Json.str "Invalid JSON in request body"),
     ("details", Json.str details),
     ("raw_data", Json.str (utf8DecodeIgnore raw))]

/-- `do_POST` (lines 173-252).  `jsonLoads` is the stdlib `json.loads`
oracle (its error carries the `JSONDecodeError` text used for the
`details` field); `contentLength` is the result of the
(case-insensitive) lookup `self.headers['Content-Length']`; `body` is the
byte stream available on `rfile`. -/
def do_POST (jsonLoads : String → Except String Json) (sign : SignFn) (ptime : Nat)
    (contentLength : Option String) (body : List Nat) : List Event × List SignCall :=
  match pyIntOfHeader contentLength with
  | .error e => (okHead ++ err500Events e ptime, [])
  | .ok n =>
    let raw_post_data := readBody body n
    match utf8Decode raw_post_data with
    | none => (okHead ++ err500Events unicodeDecodeErrorMsg ptime, [])
    | some text =>
      match jsonLoads text with
      | .error details => (okHead ++ [.write (invalidJsonBody details raw_post_data)], [])
      | .ok request_data =>
        match pyContainsKey request_data "url" with
        | .error e => (okHead ++ err500Events e ptime, [])
        | .ok false =>
            (okHead ++
             [.write (Json.obj
               [("error", Json.str "Missing url in JSON body"),
                ("usage", Json.str "POST with JSON: \x7b\"url\": \"https://fleetdata-production.s3.amazonaws.com/...\"\x7d"),
                ("received_data", request_data)])],
             [])
        | .ok true =>
          match pySubscript request_data "url" with
          | .error e => (okHead ++ err500Events e ptime, [])
          | .ok urlJson =>
            let expires := pyGetDefault request_data "expires_in" (Json.num 3600)
            match generate_presigned_url_from_s3_url sign urlJson expires with
            | (.ok presigned, calls) =>
                (okHead ++
                 [.write (Json.obj
                   [("original_url", urlJson),
                    ("presigned_url", Json.str presigned),
                    ("expires_in", expires),
                    ("status", Json.str "success"),
                    ("processing_time_ms", Json.num ptime)])],
                 calls)
            | (.error e, calls) => (okHead ++ err500Events e ptime, calls)

mutual

/-- Scan a response event trace: after every `sendResponse`, the header
block that follows must contain `Access-Control-Allow-Origin: *` before
it ends. -/
def corsOk : List Event → Bool
  | [] => true
  | .sendResponse _ :: rest => corsHeaderBlock rest
  | _ :: rest => corsOk rest

/-- Look for the CORS header among the `sendHeader` events that directly
follow a `sendResponse`; once found, resume the scan of the remaining
trace. -/
def corsHeaderBlock : List Event → Bool
  | .sendHeader n v :: rest =>
      if n = "Access-Control-Allow-Origin" ∧ v = "*" then corsOk rest
      else corsHeaderBlock rest
  | _ => false

end

/-- Fixture for witnesses: a signing delegate that always fails with
missing credentials. -/
def signNoCreds : SignFn := fun _ _ _ => .error .noCredentials

/-- Fixture for witnesses: a deterministic signing delegate. -/
def signConst : SignFn := fun b k _ => .ok ("https://signed.example/" ++ b ++ "/" ++ k)

/-- Fixture for witnesses: a `json.loads` oracle that rejects its input
the way the stdlib rejects the text `not json`. -/
def jlInvalid : String → Except String Json :=
  fun _ => .error "Expecting value: line 1 column 1 (char 0)"

/-- Fixture for witnesses: a `json.loads` oracle returning a fixed
parsed value. -/
def jlConst (j : Json) : String → Except String Json := fun _ => .ok j

/-! ### Helper lemmas about the list-level string operations -/

theorem takeWhile_append_of_all {p : Char → Bool} :
    ∀ (l₁ l₂ : List Char), (∀ c ∈ l₁, p c = true) →
      (l₁ ++ l₂).takeWhile p = l₁ ++ l₂.takeWhile p := by
  intro l₁ l₂ h
  induction l₁ with
  | nil => simp
  | cons c cs ih =>
    have hc : p c = true := h c (by simp)
    simp only [List.cons_append, List.takeWhile_cons, hc, if_true]
    rw [ih (fun x hx => h x (by simp [hx]))]

theorem dropWhile_append_of_all {p : Char → Bool} :
    ∀ (l₁ l₂ : List Char), (∀ c ∈ l₁, p c = true) →
      (l₁ ++ l₂).dropWhile p = l₂.dropWhile p := by
  intro l₁ l₂ h
  induction l₁ with
  | nil => simp
  | cons c cs ih =>
    have hc : p c = true := h c (by simp)
    simp only [List.cons_append, List.dropWhile_cons, hc, if_true]
    exact ih (fun x hx => h x (by simp [hx]))

theorem takeWhile_eq_self_of_all {p : Char → Bool} (l : List Char)
    (h : ∀ c ∈ l, p c = true) : l.takeWhile p = l := by
  have := takeWhile_append_of_all l [] h
  simpa using this

theorem isPrefixOf_append_self (l t : List Char) : l.isPrefixOf (l ++ t) = true := by
  rw [List.isPrefixOf_iff_prefix]
  exact ⟨t, rfl⟩

theorem splitAtSub_of_isPrefixOf {sep l : List Char} (hne : sep ≠ [])
    (h : sep.isPrefixOf l = true) :
    splitAtSub sep l = some ([], l.drop sep.length) := by
  cases l with
  | nil =>
    exfalso
    cases sep with
    | nil => exact hne rfl
    | cons a as => simp [List.isPrefixOf] at h
  | cons c rest => simp [splitAtSub, h]

theorem splitAtSub_single_none {c : Char} :
    ∀ {l : List Char}, (∀ x ∈ l, x ≠ c) → splitAtSub [c] l = none := by
  intro l h
  induction l with
  | nil => rfl
  | cons d ds ih =>
    have hd : d ≠ c := h d (by simp)
    have hnp : ¬ ([c].isPrefixOf (d :: ds) = true) := by
      rw [List.isPrefixOf_iff_prefix, List.cons_prefix_cons]
      rintro ⟨h1, -⟩
      exact hd h1.symm
    simp [splitAtSub, hnp, ih (fun x hx => h x (by simp [hx]))]

theorem splitAtSub_single_first {c : Char} :
    ∀ {l : List Char} (t : List Char), (∀ x ∈ l, x ≠ c) →
      splitAtSub [c] (l ++ c :: t) = some (l, t) := by
  intro l
  induction l with
  | nil =>
    intro t _
    have : [c].isPrefixOf (c :: t) = true := isPrefixOf_append_self [c] t
    simp [splitAtSub_of_isPrefixOf (by simp) this]
  | cons d ds ih =>
    intro t h
    have hd : d ≠ c := h d (by simp)
    have hnp : ¬ ([c].isPrefixOf (d :: (ds ++ c :: t)) = true) := by
      rw [List.isPrefixOf_iff_prefix, List.cons_prefix_cons]
      rintro ⟨h1, -⟩
      exact hd h1.symm
    simp [splitAtSub, hnp, ih t (fun x hx => h x (by simp [hx]))]

theorem s3Suffix_length : s3Suffix.length = 17 := by decide

theorem s3Suffix_no_border :
    ∀ k, k < 17 → 0 < k → s3Suffix.take k ≠ s3Suffix.drop (17 - k) := by decide

theorem s3Suffix_not_prefix_append {b : List Char} (t : List Char)
    (hne : b ≠ []) (h0 : s3Suffix.isPrefixOf b = false) :
    s3Suffix.isPrefixOf (b ++ (s3Suffix ++ t)) = false := by
  by_contra hcon
  rw [Bool.not_eq_false] at hcon
  obtain ⟨r, hr⟩ := List.isPrefixOf_iff_prefix.mp hcon
  have htake : (b ++ (s3Suffix ++ t)).take 17 = s3Suffix := by
    rw [← hr, ← s3Suffix_length]
    exact List.take_left _ _
  by_cases hbl : 17 ≤ b.length
  · have h1 : (b ++ (s3Suffix ++ t)).take 17 = b.take 17 := by
      rw [List.take_append_eq_append_take]
      have h0' : 17 - b.length = 0 := by omega
      simp [h0']
    have h2 : s3Suffix = b.take 17 := by rw [← htake, h1]
    have h3 : s3Suffix <+: b := h2 ▸ List.take_prefix 17 b
    rw [← List.isPrefixOf_iff_prefix] at h3
    rw [h0] at h3
    exact Bool.false_ne_true h3
  · push_neg at hbl
    have hbpos : 0 < b.length := List.length_pos.mpr hne
    have h1 : (b ++ (s3Suffix ++ t)).take 17 = b ++ s3Suffix.take (17 - b.length) := by
      rw [List.take_append_eq_append_take, List.take_of_length_le (by omega),
        List.take_append_eq_append_take]
      have h0' : 17 - b.length - s3Suffix.length = 0 := by
        rw [s3Suffix_length]; omega
      simp [h0']
    have h2 : s3Suffix = b ++ s3Suffix.take (17 - b.length) := by
      rw [h1] at htake
      exact htake.symm
    have h3 : s3Suffix.drop b.length = s3Suffix.take (17 - b.length) := by
      conv_lhs => rw [h2]
      exact List.drop_left _ _
    have h4 := s3Suffix_no_border (17 - b.length) (by omega) (by omega)
    apply h4
    rw [show 17 - (17 - b.length) = b.length by omega]
    exact h3.symm

theorem splitAtSub_s3Suffix_boundary :
    ∀ (b t : List Char), splitAtSub s3Suffix b = none →
      splitAtSub s3Suffix (b ++ (s3Suffix ++ t)) = some (b, t) := by
  intro b
  induction b with
  | nil =>
    intro t _
    have h1 : s3Suffix.isPrefixOf (s3Suffix ++ t) = true := isPrefixOf_append_self _ _
    rw [List.nil_append, splitAtSub_of_isPrefixOf (by decide) h1]
    rw [show s3Suffix.length = s3Suffix.length from rfl]
    rw [List.drop_left]
  | cons c cs ih =>
    intro t h
    have hnp : ¬ (s3Suffix.isPrefixOf (c :: cs) = true) := by
      intro hp
      simp [splitAtSub, hp] at h
    have hrec : splitAtSub s3Suffix cs = none := by
      rcases hcs : splitAtSub s3Suffix cs with _ | p
      · rfl
      · exfalso
        have h' := h
        simp [splitAtSub, hnp, hcs] at h'
    have hfalse : s3Suffix.isPrefixOf ((c :: cs) ++ (s3Suffix ++ t)) = false :=
      s3Suffix_not_prefix_append t (by simp) (by rwa [Bool.not_eq_true] at hnp)
    have hfalse' : ¬ (s3Suffix.isPrefixOf (c :: (cs ++ (s3Suffix ++ t))) = true) := by
      rw [← List.cons_append]
      rw [hfalse]
      simp
    simp [splitAtSub, hfalse', ih t hrec]

theorem contains_eq_false_of_forall {l : List Char} {a : Char}
    (h : ∀ c ∈ l, c ≠ a) : l.contains a = false := by
  by_contra hc
  rw [Bool.not_eq_false, List.contains] at hc
  exact h a (List.elem_iff.mp hc) rfl

theorem urlSanitize_eq_self {cs : List Char} (h : ∀ c ∈ cs, 32 < c.toNat) :
    urlSanitize cs = cs := by
  have h1 : cs.dropWhile (fun c => decide (c.toNat ≤ 32)) = cs := by
    cases cs with
    | nil => rfl
    | cons c rest =>
      rw [List.dropWhile_cons]
      have := h c (by simp)
      simp [Nat.not_le.mpr this]
  rw [urlSanitize, h1, List.filter_eq_self]
  intro c hc
  have h32 := h c hc
  have ht : c ≠ '\t' := by intro he; rw [he] at h32; exact absurd h32 (by decide)
  have hr : c ≠ '\r' := by intro he; rw [he] at h32; exact absurd h32 (by decide)
  have hn : c ≠ '\n' := by intro he; rw [he] at h32; exact absurd h32 (by decide)
  simp [ht, hr, hn]

theorem splitparams_eq_self {path : List Char} (h : ∀ c ∈ path, c ≠ ';') :
    splitparams path = path := by
  have h' : ∀ c ∈ path, (!(c == ';')) = true := by
    intro c hc
    simp [h c hc]
  have hlast : ((path.reverse.takeWhile (fun c => !(c == '/'))).reverse).contains ';'
      = false := by
    apply contains_eq_false_of_forall
    intro c hc
    apply h
    rw [List.mem_reverse] at hc
    have hsub := (List.takeWhile_prefix (l := path.reverse)
      (p := fun c => !(c == '/'))).subset hc
    rwa [List.mem_reverse] at hsub
  rw [splitparams]
  by_cases hf : ((path.reverse.dropWhile (fun c => !(c == '/'))).reverse).isEmpty
  · rw [if_pos hf]
    exact takeWhile_eq_self_of_all path h'
  · rw [if_neg hf, if_neg (by intro hcon; rw [hlast] at hcon; exact Bool.false_ne_true hcon)]

theorem urlparseCore_https (host p : List Char)
    (hclean : ∀ c ∈ host ++ '/' :: p, 32 < c.toNat)
    (hhost : ∀ c ∈ host, netlocEnd c = false)
    (hbr : ∀ c ∈ host, c ≠ '[' ∧ c ≠ ']')
    (hp : ∀ c ∈ p, pathEnd c = false) :
    urlparseCore ("https://".data ++ (host ++ ('/' :: p)))
      = some (host, splitparams ('/' :: p)) := by
  have hcleanAll : ∀ c ∈ "https://".data ++ (host ++ '/' :: p), 32 < c.toNat := by
    intro c hc
    rcases List.mem_append.mp hc with hm | hm
    · exact (by decide : ∀ c ∈ "https://".data, 32 < c.toNat) c hm
    · exact hclean c hm
  have hsan : urlSanitize ("https://".data ++ (host ++ '/' :: p))
      = "https://".data ++ (host ++ '/' :: p) := urlSanitize_eq_self hcleanAll
  have hscheme : splitScheme ("https://".data ++ (host ++ '/' :: p))
      = ("https".data, '/' :: '/' :: (host ++ '/' :: p)) := rfl
  have hhost' : ∀ c ∈ host, (!netlocEnd c) = true := by
    intro c hc
    rw [Bool.not_eq_true']
    exact hhost c hc
  have hslash : (!netlocEnd '/') = false := by decide
  have h2 : (host ++ '/' :: p).takeWhile (fun c => !netlocEnd c) = host := by
    rw [takeWhile_append_of_all host ('/' :: p) hhost', List.takeWhile_cons, hslash]
    simp
  have h3 : (host ++ '/' :: p).dropWhile (fun c => !netlocEnd c) = '/' :: p := by
    rw [dropWhile_append_of_all host ('/' :: p) hhost', List.dropWhile_cons, hslash]
    simp
  have hp' : ∀ c ∈ p, (!pathEnd c) = true := by
    intro c hc
    rw [Bool.not_eq_true']
    exact hp c hc
  have hslash2 : (!pathEnd '/') = true := by decide
  have h4 : ('/' :: p).takeWhile (fun c => !pathEnd c) = '/' :: p := by
    rw [List.takeWhile_cons, hslash2]
    simp [takeWhile_eq_self_of_all p hp']
  have hbr1 : host.contains '[' = false :=
    contains_eq_false_of_forall (fun c hc => (hbr c hc).1)
  have hbr2 : host.contains ']' = false :=
    contains_eq_false_of_forall (fun c hc => (hbr c hc).2)
  have hup : usesParams "https".data = true := rfl
  simp only [urlparseCore, hsan, hscheme, h2, h3, h4, hbr1, hbr2, hup,
    Bool.or_self, Bool.false_eq_true, if_false, if_true]

theorem utf8Aux_agree_fuel :
    ∀ (n : Nat) (bs : List Nat), bs.length ≤ n →
      ∀ cps, utf8DecodeAux bs = some cps → utf8IgnoreAux bs = cps := by
  intro n
  induction n with
  | zero =>
    intro bs hlen cps h
    have hnil : bs = [] := List.length_eq_zero.mp (Nat.le_zero.mp hlen)
    subst hnil
    simp [utf8DecodeAux] at h
    subst h
    simp [utf8IgnoreAux]
  | succ m ih =>
    intro bs hlen cps h
    cases bs with
    | nil =>
      simp [utf8DecodeAux] at h
      subst h
      simp [utf8IgnoreAux]
    | cons b1 rest =>
      cases hs : utf8Step1 (b1 :: rest) with
      | none =>
        rw [utf8DecodeAux, hs] at h
        exact absurd h (by simp)
      | some ck =>
        obtain ⟨c, k⟩ := ck
        rw [utf8DecodeAux, hs] at h
        have h2 : (utf8DecodeAux (rest.drop (k - 1))).map (fun cs => c :: cs) = some cps := h
        rcases hrec : utf8DecodeAux (rest.drop (k - 1)) with _ | cs
        · rw [hrec] at h2
          exact absurd h2 (by simp)
        · rw [hrec] at h2
          simp at h2
          have hlen2 : (rest.drop (k - 1)).length ≤ m := by
            simp [List.length_drop] at *
            omega
          rw [utf8IgnoreAux, hs]
          show c :: utf8IgnoreAux (rest.drop (k - 1)) = cps
          rw [ih (rest.drop (k - 1)) hlen2 cs hrec, ← h2]

theorem utf8DecodeIgnore_eq_of_decode {bs : List Nat} {text : String}
    (h : utf8Decode bs = some text) : utf8DecodeIgnore bs = text := by
  rcases haux : utf8DecodeAux bs with _ | cps
  · rw [utf8Decode, haux] at h
    exact absurd h (by simp)
  · rw [utf8Decode, haux] at h
    simp at h
    rw [utf8DecodeIgnore, utf8Aux_agree_fuel bs.length bs le_rfl cps haux, h]

theorem any_of_find?_eq_some {α : Type} {p : α → Bool} {l : List α} {x : α}
    (h : l.find? p = some x) : l.any p = true := by
  have hs : (l.find? p).isSome = true := by rw [h]; rfl
  rw [List.find?_isSome] at hs
  rw [List.any_eq_true]
  exact hs

/-! ### Claim C1 -/

/-- C1, counterexample: the host `bucket.s3.amazonaws.com.evil.com` is
neither a subdomain of the storage suffix (it does not end with
`.s3.amazonaws.com`) nor the bare endpoint, yet the parser produces the
pair `(bucket, secret.txt)` instead of failing: line 269 tests substring
containment (`'.s3.amazonaws.com' in parsed.netloc`), not an
ends-with condition. -/
theorem parse_substring_host_counterexample :
    parseS3Url "https://bucket.s3.amazonaws.com.evil.com/secret.txt"
      = Except.ok ("bucket", "secret.txt") := by rfl

/-- C1, amended: for every URL on which `urlparse` succeeds (in the
modelled fragment, which excludes bracketed hosts) with a host that
neither contains the substring `.s3.amazonaws.com` nor is exactly
`s3.amazonaws.com`, parsing fails with the UnrecognizedFormat error
carrying the offending URL, and no (bucket, key) pair is produced. -/
theorem parse_unrecognized_host_fails (url : String) (netloc path : List Char)
    (hok : urlparseModel url = some (netloc, path))
    (h1 : splitAtSub s3Suffix netloc = none)
    (h2 : netloc ≠ bareHost) :
    parseS3Url url = Except.error (ParseError.unrecognizedFormat url) := by
  simp only [parseS3Url, hok, parseS3Core, h1, if_neg h2]

/-- Witness for C1: the amended theorem applied to the concrete URL
`https://example.com/file.txt`. -/
theorem parse_unrecognized_host_fails_witness :
    parseS3Url "https://example.com/file.txt"
      = Except.error (ParseError.unrecognizedFormat "https://example.com/file.txt") :=
  parse_unrecognized_host_fails "https://example.com/file.txt"
    "example.com".data "/file.txt".data (by decide) (by decide) (by decide)

/-! ### Claim C3 -/

/-- C3, counterexample: the URL `https://b.s3.amazonaws.com//k` has the
virtual-hosted form with bucket `b` and key `/k` (path `//k`), but the
parser returns `k`: line 272 strips every leading slash
(`parsed.path.lstrip('/')`), not just one. -/
theorem parse_virtual_hosted_counterexample :
    parseS3Url "https://b.s3.amazonaws.com//k" = Except.ok ("b", "k")
      ∧ ("k" : String) ≠ "/k" := ⟨by rfl, by decide⟩

/-- C3, amended: for every virtual-hosted-style URL
`https://{bucket}.s3.amazonaws.com/{key}` whose bucket is nonempty, does
not itself contain the storage suffix, and contains none of `/ ? # [ ]`
and no control characters, and whose key contains none of `? # ;` and no
control characters and is nonempty after removing leading slashes, the
parser returns exactly the bucket and the key with all leading slashes
stripped and no other alteration.  (A `;` in the last path segment would
start stdlib params and be dropped by `urlparse` before the code sees
the path, so such keys are excluded.) -/
theorem parse_virtual_hosted (bucket key : String)
    (hb : bucket.data ≠ [])
    (hbsub : splitAtSub s3Suffix bucket.data = none)
    (hbchars : ∀ c ∈ bucket.data, netlocEnd c = false)
    (hbbr : ∀ c ∈ bucket.data, c ≠ '[' ∧ c ≠ ']')
    (hbclean : ∀ c ∈ bucket.data, 32 < c.toNat)
    (hkchars : ∀ c ∈ key.data, pathEnd c = false)
    (hksemi : ∀ c ∈ key.data, c ≠ ';')
    (hkclean : ∀ c ∈ key.data, 32 < c.toNat)
    (hkey : key.data.dropWhile (fun c => c == '/') ≠ []) :
    parseS3Url ("https://" ++ bucket ++ ".s3.amazonaws.com/" ++ key)
      = Except.ok (bucket, String.mk (key.data.dropWhile (fun c => c == '/'))) := by
  obtain ⟨bl⟩ := bucket
  obtain ⟨kl⟩ := key
  have hsuffix : ∀ c ∈ s3Suffix, netlocEnd c = false := by decide
  have hhost : ∀ c ∈ bl ++ s3Suffix, netlocEnd c = false := by
    intro c hc
    rcases List.mem_append.mp hc with h | h
    · exact hbchars c h
    · exact hsuffix c h
  have hbr : ∀ c ∈ bl ++ s3Suffix, c ≠ '[' ∧ c ≠ ']' := by
    intro c hc
    rcases List.mem_append.mp hc with h | h
    · exact hbbr c h
    · exact (by decide : ∀ c ∈ s3Suffix, c ≠ '[' ∧ c ≠ ']') c h
  have hclean : ∀ c ∈ (bl ++ s3Suffix) ++ '/' :: kl, 32 < c.toNat := by
    intro c hc
    rcases List.mem_append.mp hc with h | h
    · rcases List.mem_append.mp h with h2 | h2
      · exact hbclean c h2
      · exact (by decide : ∀ c ∈ s3Suffix, 32 < c.toNat) c h2
    · rcases List.mem_cons.mp h with h2 | h2
      · rw [h2]; decide
      · exact hkclean c h2
  have hdata : ("https://" ++ String.mk bl ++ ".s3.amazonaws.com/" ++ String.mk kl).data
      = "https://".data ++ ((bl ++ s3Suffix) ++ ('/' :: kl)) := by
    simp only [String.data_append]
    simp [s3Suffix, List.append_assoc]
  have hsp : splitparams ('/' :: kl) = '/' :: kl := by
    apply splitparams_eq_self
    intro c hc
    rcases List.mem_cons.mp hc with h2 | h2
    · rw [h2]; decide
    · exact hksemi c h2
  have hnp : urlparseModel ("https://" ++ String.mk bl ++ ".s3.amazonaws.com/" ++ String.mk kl)
      = some (bl ++ s3Suffix, '/' :: kl) := by
    rw [urlparseModel, hdata, urlparseCore_https (bl ++ s3Suffix) kl hclean hhost hbr hkchars,
      hsp]
  have hsplit : splitAtSub s3Suffix (bl ++ s3Suffix) = some (bl, []) := by
    have h := splitAtSub_s3Suffix_boundary bl [] hbsub
    simpa using h
  have hkd : ('/' :: kl).dropWhile (fun c => c == '/') = kl.dropWhile (fun c => c == '/') := by
    rw [List.dropWhile_cons]
    simp
  have hbe : bl.isEmpty = false := List.isEmpty_eq_false.mpr hb
  have hke : (kl.dropWhile (fun c => c == '/')).isEmpty = false :=
    List.isEmpty_eq_false.mpr hkey
  simp only [parseS3Url, hnp, parseS3Core, hsplit, hkd, hbe, hke, Bool.or_self,
    Bool.false_eq_true, if_false]

/-- Witness for C3: the amended theorem applied to the concrete URL
`https://mybucket.s3.amazonaws.com/path/file.txt`. -/
theorem parse_virtual_hosted_witness :
    parseS3Url "https://mybucket.s3.amazonaws.com/path/file.txt"
      = Except.ok ("mybucket", "path/file.txt") := by
  have h := parse_virtual_hosted "mybucket" "path/file.txt" (by decide) (by decide)
    (by decide) (by decide) (by decide) (by decide) (by decide) (by decide) (by decide)
  exact h

/-! ### Claim C4 -/

/-- C4: for every valid path-style URL
`https://s3.amazonaws.com/{bucket}/{key}` (bucket a nonempty single path
segment, key nonempty, neither containing `? # ;` nor control
characters), the parser returns `(bucket, key)` by splitting the
stripped path on the first `/`; and for a path-style URL holding only
`{bucket}` with no trailing key, parsing fails with the
IncompleteReference error (line 282).  (A `;` in the last path segment
would start stdlib params and be dropped by `urlparse` before the code
sees the path, so such buckets and keys are excluded.) -/
theorem parse_path_style (bucket key : String)
    (hb : bucket.data ≠ [])
    (hbslash : ∀ c ∈ bucket.data, c ≠ '/')
    (hbchars : ∀ c ∈ bucket.data, pathEnd c = false)
    (hbsemi : ∀ c ∈ bucket.data, c ≠ ';')
    (hbclean : ∀ c ∈ bucket.data, 32 < c.toNat)
    (hkchars : ∀ c ∈ key.data, pathEnd c = false)
    (hksemi : ∀ c ∈ key.data, c ≠ ';')
    (hkclean : ∀ c ∈ key.data, 32 < c.toNat)
    (hk : key.data ≠ []) :
    parseS3Url ("https://s3.amazonaws.com/" ++ bucket ++ "/" ++ key)
        = Except.ok (bucket, key)
    ∧ parseS3Url ("https://s3.amazonaws.com/" ++ bucket)
        = Except.error
            (ParseError.incompleteReference ("https://s3.amazonaws.com/" ++ bucket)) := by
  obtain ⟨bl⟩ := bucket
  obtain ⟨kl⟩ := key
  have hbare : ∀ c ∈ bareHost, netlocEnd c = false := by decide
  have hbarebr : ∀ c ∈ bareHost, c ≠ '[' ∧ c ≠ ']' := by decide
  have hnosuffix : splitAtSub s3Suffix bareHost = none := by decide
  have hheadb : ∀ (x : List Char), bl ++ x ≠ [] := by
    intro x h
    exact hb (List.append_eq_nil.mp h).1
  have hdropb : ∀ (x : List Char), (bl ++ x).dropWhile (fun c => c == '/') = bl ++ x := by
    intro x
    cases hblc : bl with
    | nil => exact absurd hblc hb
    | cons c cs =>
      have hc : (c == '/') = false := by
        have hcc := hbslash c (by rw [hblc]; simp)
        simp [hcc]
      simp [List.dropWhile_cons, hc]
  constructor
  · have hp : ∀ c ∈ bl ++ '/' :: kl, pathEnd c = false := by
      intro c hc
      rcases List.mem_append.mp hc with h | h
      · exact hbchars c h
      · rcases List.mem_cons.mp h with h | h
        · rw [h]; decide
        · exact hkchars c h
    have hdata : ("https://s3.amazonaws.com/" ++ String.mk bl ++ "/" ++ String.mk kl).data
        = "https://".data ++ (bareHost ++ ('/' :: (bl ++ '/' :: kl))) := by
      simp only [String.data_append]
      simp [bareHost, List.append_assoc]
    have hclean : ∀ c ∈ bareHost ++ '/' :: (bl ++ '/' :: kl), 32 < c.toNat := by
      intro c hc
      rcases List.mem_append.mp hc with h | h
      · exact (by decide : ∀ c ∈ bareHost, 32 < c.toNat) c h
      · rcases List.mem_cons.mp h with h2 | h2
        · rw [h2]; decide
        · rcases List.mem_append.mp h2 with h3 | h3
          · exact hbclean c h3
          · rcases List.mem_cons.mp h3 with h4 | h4
            · rw [h4]; decide
            · exact hkclean c h4
    have hsp : splitparams ('/' :: (bl ++ '/' :: kl)) = '/' :: (bl ++ '/' :: kl) := by
      apply splitparams_eq_self
      intro c hc
      rcases List.mem_cons.mp hc with h2 | h2
      · rw [h2]; decide
      · rcases List.mem_append.mp h2 with h3 | h3
        · exact hbsemi c h3
        · rcases List.mem_cons.mp h3 with h4 | h4
          · rw [h4]; decide
          · exact hksemi c h4
    have hnp : urlparseModel ("https://s3.amazonaws.com/" ++ String.mk bl ++ "/" ++ String.mk kl)
        = some (bareHost, '/' :: (bl ++ '/' :: kl)) := by
      rw [urlparseModel, hdata,
        urlparseCore_https bareHost (bl ++ '/' :: kl) hclean hbare hbarebr hp, hsp]
    have hstrip : ('/' :: (bl ++ '/' :: kl)).dropWhile (fun c => c == '/')
        = bl ++ '/' :: kl := by
      rw [List.dropWhile_cons]
      simp [hdropb ('/' :: kl)]
    have hsplit : splitAtSub ['/'] (bl ++ '/' :: kl) = some (bl, kl) :=
      splitAtSub_single_first kl hbslash
    have hbe : bl.isEmpty = false := List.isEmpty_eq_false.mpr hb
    have hke : kl.isEmpty = false := List.isEmpty_eq_false.mpr hk
    simp only [parseS3Url, hnp, parseS3Core, hnosuffix, if_pos rfl, hstrip, hsplit,
      hbe, hke, Bool.or_self, Bool.false_eq_true, if_false]
    simp
  · have hp : ∀ c ∈ bl, pathEnd c = false := hbchars
    have hdata : ("https://s3.amazonaws.com/" ++ String.mk bl).data
        = "https://".data ++ (bareHost ++ ('/' :: bl)) := by
      simp only [String.data_append]
      simp [bareHost, List.append_assoc]
    have hclean : ∀ c ∈ bareHost ++ '/' :: bl, 32 < c.toNat := by
      intro c hc
      rcases List.mem_append.mp hc with h | h
      · exact (by decide : ∀ c ∈ bareHost, 32 < c.toNat) c h
      · rcases List.mem_cons.mp h with h2 | h2
        · rw [h2]; decide
        · exact hbclean c h2
    have hsp : splitparams ('/' :: bl) = '/' :: bl := by
      apply splitparams_eq_self
      intro c hc
      rcases List.mem_cons.mp hc with h2 | h2
      · rw [h2]; decide
      · exact hbsemi c h2
    have hnp : urlparseModel ("https://s3.amazonaws.com/" ++ String.mk bl)
        = some (bareHost, '/' :: bl) := by
      rw [urlparseModel, hdata,
        urlparseCore_https bareHost bl hclean hbare hbarebr hp, hsp]
    have hstrip : ('/' :: bl).dropWhile (fun c => c == '/') = bl := by
      rw [List.dropWhile_cons]
      have h2 := hdropb []
      simp at h2
      simp [h2]
    have hsplit : splitAtSub ['/'] bl = none := splitAtSub_single_none hbslash
    simp only [parseS3Url, hnp, parseS3Core, hnosuffix, if_pos rfl, hstrip, hsplit,
      List.isEmpty_nil, Bool.or_true, if_true]

/-- Witness for C4: the theorem applied to bucket `mybucket` and key
`a/b.txt`. -/
theorem parse_path_style_witness :
    parseS3Url "https://s3.amazonaws.com/mybucket/a/b.txt"
      = Except.ok ("mybucket", "a/b.txt")
    ∧ parseS3Url "https://s3.amazonaws.com/mybucket"
      = Except.error
          (ParseError.incompleteReference "https://s3.amazonaws.com/mybucket") := by
  have h := parse_path_style "mybucket" "a/b.txt" (by decide) (by decide) (by decide)
    (by decide) (by decide) (by decide) (by decide) (by decide) (by decide)
  exact h

/-! ### Claim C7 -/

/-- C7: for every GET request whose query string has no `url` parameter,
the handler responds with status 200 (the only `sendResponse` in the
trace) and a JSON body with `error` equal to `Missing url parameter` and
a `usage` field, and the signing delegate is never invoked (the call list
is empty). -/
theorem do_GET_missing_url (sign : SignFn) (ptime : Nat)
    (qp : List (String × List String)) (h : lookupQ qp "url" = none) :
    do_GET sign ptime qp
      = (okHead ++
         [Event.write (Json.obj
           [("error", Json.str "Missing url parameter"),
            ("usage", Json.str "GET /?url=https://fleetdata-production.s3.amazonaws.com/...")])],
         []) := by
  simp only [do_GET, h]

/-- Witness for C7: a GET request whose only query parameter is `other`. -/
theorem do_GET_missing_url_witness :
    do_GET signConst 7 [("other", ["x"])]
      = (okHead ++
         [Event.write (Json.obj
           [("error", Json.str "Missing url parameter"),
            ("usage", Json.str "GET /?url=https://fleetdata-production.s3.amazonaws.com/...")])],
         []) :=
  do_GET_missing_url signConst 7 [("other", ["x"])] (by decide)

/-! ### Claim C9 -/

/-- C9: for every POST request without a Content-Length header, the
failed body read (`int(None)` on line 190) is caught by the generic
exception handler and a JSON body with `error`, `status` equal to
`error`, and `processing_time_ms` is still written to the client; the
request cycle completes for every delegate, oracle, body and timing. -/
theorem do_POST_no_content_length (jsonLoads : String → Except String Json)
    (sign : SignFn) (ptime : Nat) (body : List Nat) :
    do_POST jsonLoads sign ptime none body
      = (okHead ++ err500Events intNoneTypeErrorMsg ptime, []) := by
  simp only [do_POST, pyIntOfHeader]

/-! ### Claim C2 -/

/-- C2: for every GET or POST request on which processing fails
unexpectedly — the URL parser, the signing call or the credential lookup
raises, i.e. `generate_presigned_url_from_s3_url` returns an error — the
handler emits an HTTP 500 status and writes the JSON body with keys
`error`, `status` equal to `error`, and `processing_time_ms`
(`err500Events`).  (The 500 status line follows the 200 header block
already sent at the top of the handler, exactly as the code behaves.) -/
theorem handlers_unexpected_failure_500 :
    (∀ (sign : SignFn) (ptime : Nat) (qp : List (String × List String))
       (u : String) (vs : List String) (e : String) (calls : List SignCall),
       lookupQ qp "url" = some (u :: vs) →
       generate_presigned_url_from_s3_url sign (Json.str u) (Json.num 3600)
         = (Except.error e, calls) →
       do_GET sign ptime qp = (okHead ++ err500Events e ptime, calls))
    ∧ (∀ (jsonLoads : String → Except String Json) (sign : SignFn) (ptime : Nat)
         (cl : Option String) (body : List Nat) (n : Int) (text : String)
         (rd urlJson : Json) (e : String) (calls : List SignCall),
         pyIntOfHeader cl = Except.ok n →
         utf8Decode (readBody body n) = some text →
         jsonLoads text = Except.ok rd →
         pyContainsKey rd "url" = Except.ok true →
         pySubscript rd "url" = Except.ok urlJson →
         generate_presigned_url_from_s3_url sign urlJson
             (pyGetDefault rd "expires_in" (Json.num 3600)) = (Except.error e, calls) →
         do_POST jsonLoads sign ptime cl body
           = (okHead ++ err500Events e ptime, calls)) := by
  constructor
  · intro sign ptime qp u vs e calls h1 h2
    simp only [do_GET, h1, h2]
  · intro jsonLoads sign ptime cl body n text rd urlJson e calls h1 h2 h3 h4 h5 h6
    simp only [do_POST, h1, h2, h3, h4, h5, h6]

/-- Witness for C2: a delegate with no credentials fails both a GET and a
POST for `https://b.s3.amazonaws.com/k`, and both handlers emit the 500
error body. -/
theorem handlers_unexpected_failure_500_witness :
    do_GET signNoCreds 3 [("url", ["https://b.s3.amazonaws.com/k"])]
      = (okHead ++
         err500Events "AWS credentials not found. Please configure your AWS credentials." 3,
         [⟨"b", "k", Json.num 3600⟩])
    ∧ do_POST (jlConst (Json.obj [("url", Json.str "https://b.s3.amazonaws.com/k")]))
        signNoCreds 3 (some "0") []
      = (okHead ++
         err500Events "AWS credentials not found. Please configure your AWS credentials." 3,
         [⟨"b", "k", Json.num 3600⟩]) := by
  constructor
  · exact handlers_unexpected_failure_500.1 signNoCreds 3
      [("url", ["https://b.s3.amazonaws.com/k"])] "https://b.s3.amazonaws.com/k" [] _ _
      rfl rfl
  · exact handlers_unexpected_failure_500.2
      (jlConst (Json.obj [("url", Json.str "https://b.s3.amazonaws.com/k")]))
      signNoCreds 3 (some "0") [] 0 ""
      (Json.obj [("url", Json.str "https://b.s3.amazonaws.com/k")])
      (Json.str "https://b.s3.amazonaws.com/k") _ _
      rfl (by simp [utf8Decode, utf8DecodeAux, readBody]) rfl rfl rfl rfl

/-! ### Claim C6 -/

/-- C6: for every POST request whose body text does not parse as JSON,
the handler writes a JSON body with `error` equal to
`Invalid JSON in request body`, a `details` field (the decoder message),
and a `raw_data` field that equals the original body text (the lossy
re-decode of the raw bytes coincides with the strict decode that
succeeded on them). -/
theorem do_POST_invalid_json (jsonLoads : String → Except String Json) (sign : SignFn)
    (ptime : Nat) (cl : Option String) (body : List Nat) (n : Int)
    (text details : String)
    (hcl : pyIntOfHeader cl = Except.ok n)
    (hdec : utf8Decode (readBody body n) = some text)
    (hjl : jsonLoads text = Except.error details) :
    do_POST jsonLoads sign ptime cl body
      = (okHead ++ [Event.write (invalidJsonBody details (readBody body n))], [])
    ∧ utf8DecodeIgnore (readBody body n) = text := by
  constructor
  · simp only [do_POST, hcl, hdec, hjl]
  · exact utf8DecodeIgnore_eq_of_decode hdec

/-- Witness for C6: the body `not json` with Content-Length 8 and the
stdlib oracle that rejects it. -/
theorem do_POST_invalid_json_witness :
    do_POST jlInvalid signConst 2 (some "8") [110, 111, 116, 32, 106, 115, 111, 110]
      = (okHead ++
         [Event.write (invalidJsonBody "Expecting value: line 1 column 1 (char 0)"
           (readBody [110, 111, 116, 32, 106, 115, 111, 110] 8))], [])
    ∧ utf8DecodeIgnore (readBody [110, 111, 116, 32, 106, 115, 111, 110] 8) = "not json" :=
  do_POST_invalid_json jlInvalid signConst 2 (some "8")
    [110, 111, 116, 32, 106, 115, 111, 110] 8 "not json"
    "Expecting value: line 1 column 1 (char 0)"
    rfl (by simp [utf8Decode, utf8DecodeAux, utf8Step1, readBody]) rfl

/-! ### Claim C10 -/

/-- C10: for every POST request whose body bytes are not valid UTF-8, the
decode error on line 197 is not caught by the JSON-decode branch: the
handler takes the generic path, emitting the 500 status with the
`error` / `status: error` / `processing_time_ms` body, and no
Invalid-JSON response is ever written. -/
theorem do_POST_invalid_utf8 (jsonLoads : String → Except String Json) (sign : SignFn)
    (ptime : Nat) (cl : Option String) (body : List Nat) (n : Int)
    (hcl : pyIntOfHeader cl = Except.ok n)
    (hdec : utf8Decode (readBody body n) = none) :
    do_POST jsonLoads sign ptime cl body
      = (okHead ++ err500Events unicodeDecodeErrorMsg ptime, [])
    ∧ ∀ (d r : Json),
        Event.write (Json.obj
          [("error", Json.str "Invalid JSON in request body"),
           ("details", d), ("raw_data", r)])
          ∉ (do_POST jsonLoads sign ptime cl body).1 := by
  have htrace : do_POST jsonLoads sign ptime cl body
      = (okHead ++ err500Events unicodeDecodeErrorMsg ptime, []) := by
    simp only [do_POST, hcl, hdec]
  refine ⟨htrace, ?_⟩
  intro d r
  rw [htrace]
  simp [okHead, err500Events, jsonHeader, corsHeader, unicodeDecodeErrorMsg]

/-- Witness for C10: the single byte `0xFF` is not valid UTF-8. -/
theorem do_POST_invalid_utf8_witness :
    do_POST jlInvalid signConst 4 (some "1") [255]
      = (okHead ++ err500Events unicodeDecodeErrorMsg 4, [])
    ∧ ∀ (d r : Json),
        Event.write (Json.obj
          [("error", Json.str "Invalid JSON in request body"),
           ("details", d), ("raw_data", r)])
          ∉ (do_POST jlInvalid signConst 4 (some "1") [255]).1 :=
  do_POST_invalid_utf8 jlInvalid signConst 4 (some "1") [255] 1
    rfl (by simp [utf8Decode, utf8DecodeAux, utf8Step1, utf8Cont, utf8Cont3, utf8Cont4, readBody])

theorem generate_ok_pair (sign : SignFn) (u bucket key purl : String) (exp : Json)
    (hparse : parseS3Url u = Except.ok (bucket, key))
    (hsig : sign bucket key exp = Except.ok purl) :
    generate_presigned_url_from_s3_url sign (Json.str u) exp
      = (Except.ok purl, [⟨bucket, key, exp⟩]) := by
  simp only [generate_presigned_url_from_s3_url, hparse, hsig]

theorem generate_snd (sign : SignFn) (u bucket key : String) (exp : Json)
    (hparse : parseS3Url u = Except.ok (bucket, key)) :
    (generate_presigned_url_from_s3_url sign (Json.str u) exp).2
      = [⟨bucket, key, exp⟩] := by
  simp only [generate_presigned_url_from_s3_url, hparse]
  rcases sign bucket key exp with err | purl
  · rcases err with _ | m | m <;> rfl
  · rfl

/-! ### Claim C5 -/

/-- C5: for every POST request with a valid JSON object body containing a
`url` field that parses to (bucket, key): if the body has no `expires_in`
field, the signing delegate is invoked with expiration 3600 and the
success response echoes `expires_in: 3600`; if the body carries
`expires_in` equal to an integer `nv`, the delegate is invoked with `nv`
and the response echoes it.  The call list records the delegate
invocations (one for any delegate outcome), and the success trace is
produced whenever the delegate succeeds. -/
theorem do_POST_expires (jsonLoads : String → Except String Json) (sign : SignFn)
    (ptime : Nat) (cl : Option String) (body : List Nat) (n : Int) (text : String)
    (fields : List (String × Json)) (u bucket key : String)
    (hcl : pyIntOfHeader cl = Except.ok n)
    (hdec : utf8Decode (readBody body n) = some text)
    (hjl : jsonLoads text = Except.ok (Json.obj fields))
    (hurl : fields.find? (fun f => f.1 == "url") = some ("url", Json.str u))
    (hparse : parseS3Url u = Except.ok (bucket, key)) :
    (fields.find? (fun f => f.1 == "expires_in") = none →
      (do_POST jsonLoads sign ptime cl body).2 = [⟨bucket, key, Json.num 3600⟩]
      ∧ ∀ purl, sign bucket key (Json.num 3600) = Except.ok purl →
          (do_POST jsonLoads sign ptime cl body).1
            = okHead ++ [Event.write (Json.obj
                [("original_url", Json.str u),
                 ("presigned_url", Json.str purl),
                 ("expires_in", Json.num 3600),
                 ("status", Json.str "success"),
                 ("processing_time_ms", Json.num ptime)])])
    ∧ (∀ nv : Int,
        fields.find? (fun f => f.1 == "expires_in") = some ("expires_in", Json.num nv) →
      (do_POST jsonLoads sign ptime cl body).2 = [⟨bucket, key, Json.num nv⟩]
      ∧ ∀ purl, sign bucket key (Json.num nv) = Except.ok purl →
          (do_POST jsonLoads sign ptime cl body).1
            = okHead ++ [Event.write (Json.obj
                [("original_url", Json.str u),
                 ("presigned_url", Json.str purl),
                 ("expires_in", Json.num nv),
                 ("status", Json.str "success"),
                 ("processing_time_ms", Json.num ptime)])]) := by
  have hcont : pyContainsKey (Json.obj fields) "url" = Except.ok true := by
    simp only [pyContainsKey]
    rw [any_of_find?_eq_some hurl]
  have hsub : pySubscript (Json.obj fields) "url" = Except.ok (Json.str u) := by
    simp only [pySubscript, hurl]
  constructor
  · intro hexp
    have hget : pyGetDefault (Json.obj fields) "expires_in" (Json.num 3600)
        = Json.num 3600 := by
      simp only [pyGetDefault, hexp]
    constructor
    · rcases hg : generate_presigned_url_from_s3_url sign (Json.str u) (Json.num 3600)
        with ⟨res, calls⟩
      have hcalls : calls = [⟨bucket, key, Json.num 3600⟩] := by
        have h2 := generate_snd sign u bucket key (Json.num 3600) hparse
        rw [hg] at h2
        exact h2
      rcases res with e | purl
      · simp only [do_POST, hcl, hdec, hjl, hcont, hsub, hget, hg, hcalls]
      · simp only [do_POST, hcl, hdec, hjl, hcont, hsub, hget, hg, hcalls]
    · intro purl hsig
      have hg := generate_ok_pair sign u bucket key purl (Json.num 3600) hparse hsig
      simp only [do_POST, hcl, hdec, hjl, hcont, hsub, hget, hg]
  · intro nv hexp
    have hget : pyGetDefault (Json.obj fields) "expires_in" (Json.num 3600)
        = Json.num nv := by
      simp only [pyGetDefault, hexp]
    constructor
    · rcases hg : generate_presigned_url_from_s3_url sign (Json.str u) (Json.num nv)
        with ⟨res, calls⟩
      have hcalls : calls = [⟨bucket, key, Json.num nv⟩] := by
        have h2 := generate_snd sign u bucket key (Json.num nv) hparse
        rw [hg] at h2
        exact h2
      rcases res with e | purl
      · simp only [do_POST, hcl, hdec, hjl, hcont, hsub, hget, hg, hcalls]
      · simp only [do_POST, hcl, hdec, hjl, hcont, hsub, hget, hg, hcalls]
    · intro purl hsig
      have hg := generate_ok_pair sign u bucket key purl (Json.num nv) hparse hsig
      simp only [do_POST, hcl, hdec, hjl, hcont, hsub, hget, hg]

/-- Witness for C5: a POST body with only a `url` field yields a call and
an echo with 3600; a body with `expires_in: 120` yields a call and an
echo with 120. -/
theorem do_POST_expires_witness :
    (do_POST (jlConst (Json.obj [("url", Json.str "https://b.s3.amazonaws.com/k")]))
        signConst 9 (some "0") []).2 = [⟨"b", "k", Json.num 3600⟩]
    ∧ (do_POST (jlConst (Json.obj [("url", Json.str "https://b.s3.amazonaws.com/k")]))
        signConst 9 (some "0") []).1
      = okHead ++ [Event.write (Json.obj
          [("original_url", Json.str "https://b.s3.amazonaws.com/k"),
           ("presigned_url", Json.str "https://signed.example/b/k"),
           ("expires_in", Json.num 3600),
           ("status", Json.str "success"),
           ("processing_time_ms", Json.num 9)])]
    ∧ (do_POST (jlConst (Json.obj [("url", Json.str "https://b.s3.amazonaws.com/k"),
          ("expires_in", Json.num 120)])) signConst 9 (some "0") []).2
      = [⟨"b", "k", Json.num 120⟩]
    ∧ (do_POST (jlConst (Json.obj [("url", Json.str "https://b.s3.amazonaws.com/k"),
          ("expires_in", Json.num 120)])) signConst 9 (some "0") []).1
      = okHead ++ [Event.write (Json.obj
          [("original_url", Json.str "https://b.s3.amazonaws.com/k"),
           ("presigned_url", Json.str "https://signed.example/b/k"),
           ("expires_in", Json.num 120),
           ("status", Json.str "success"),
           ("processing_time_ms", Json.num 9)])] := by
  have hA := do_POST_expires
    (jlConst (Json.obj [("url", Json.str "https://b.s3.amazonaws.com/k")]))
    signConst 9 (some "0") [] 0 ""
    [("url", Json.str "https://b.s3.amazonaws.com/k")]
    "https://b.s3.amazonaws.com/k" "b" "k"
    rfl (by simp [utf8Decode, utf8DecodeAux, readBody]) rfl rfl rfl
  have hB := do_POST_expires
    (jlConst (Json.obj [("url", Json.str "https://b.s3.amazonaws.com/k"),
      ("expires_in", Json.num 120)]))
    signConst 9 (some "0") [] 0 ""
    [("url", Json.str "https://b.s3.amazonaws.com/k"), ("expires_in", Json.num 120)]
    "https://b.s3.amazonaws.com/k" "b" "k"
    rfl (by simp [utf8Decode, utf8DecodeAux, readBody]) rfl rfl rfl
  have hA1 := hA.1 rfl
  have hB1 := hB.2 120 rfl
  exact ⟨hA1.1, hA1.2 "https://signed.example/b/k" rfl,
         hB1.1, hB1.2 "https://signed.example/b/k" rfl⟩

theorem corsOk_okHead_append (t : List Event) : corsOk (okHead ++ t) = corsOk t := by
  simp [okHead, corsOk, corsHeaderBlock, jsonHeader, corsHeader]

theorem corsOk_err500 (e : String) (p : Nat) : corsOk (err500Events e p) = true := by
  simp [err500Events, corsOk, corsHeaderBlock, jsonHeader, corsHeader]

theorem corsOk_single_write (j : Json) : corsOk [Event.write j] = true := by
  simp [corsOk]

/-! ### Claim C8 -/

/-- C8: every response the handler writes — the OPTIONS preflight, every
GET branch and every POST branch, success or error — carries an
`Access-Control-Allow-Origin: *` header in the header block after each
emitted status line, and the preflight additionally declares the allowed
methods `GET, POST, OPTIONS` and the allowed header `Content-Type`. -/
theorem all_responses_include_cors :
    corsOk do_OPTIONS = true
    ∧ (∀ (sign : SignFn) (ptime : Nat) (qp : List (String × List String)),
        corsOk (do_GET sign ptime qp).1 = true)
    ∧ (∀ (jsonLoads : String → Except String Json) (sign : SignFn) (ptime : Nat)
         (cl : Option String) (body : List Nat),
        corsOk (do_POST jsonLoads sign ptime cl body).1 = true)
    ∧ Event.sendHeader "Access-Control-Allow-Methods" "GET, POST, OPTIONS" ∈ do_OPTIONS
    ∧ Event.sendHeader "Access-Control-Allow-Headers" "Content-Type" ∈ do_OPTIONS := by
  refine ⟨?_, ?_, ?_, ?_, ?_⟩
  · simp [do_OPTIONS, corsOk, corsHeaderBlock]
  · intro sign ptime qp
    rcases h : lookupQ qp "url" with _ | vs
    · simp only [do_GET, h]
      rw [corsOk_okHead_append]
      exact corsOk_single_write _
    · rcases vs with _ | ⟨u, rest⟩
      · simp only [do_GET, h]
        rw [corsOk_okHead_append, corsOk_err500]
      · rcases hg : generate_presigned_url_from_s3_url sign (Json.str u) (Json.num 3600)
          with ⟨res, calls⟩
        rcases res with e | purl
        · simp only [do_GET, h, hg]
          rw [corsOk_okHead_append, corsOk_err500]
        · simp only [do_GET, h, hg]
          rw [corsOk_okHead_append]
          exact corsOk_single_write _
  · intro jsonLoads sign ptime cl body
    rcases h1 : pyIntOfHeader cl with e | n
    · simp only [do_POST, h1]
      rw [corsOk_okHead_append, corsOk_err500]
    · rcases h2 : utf8Decode (readBody body n) with _ | text
      · simp only [do_POST, h1, h2]
        rw [corsOk_okHead_append, corsOk_err500]
      · rcases h3 : jsonLoads text with d | rd
        · simp only [do_POST, h1, h2, h3]
          rw [corsOk_okHead_append]
          exact corsOk_single_write _
        · rcases h4 : pyContainsKey rd "url" with e | b
          · simp only [do_POST, h1, h2, h3, h4]
            rw [corsOk_okHead_append, corsOk_err500]
          · rcases b with _ | _
            · simp only [do_POST, h1, h2, h3, h4]
              rw [corsOk_okHead_append]
              exact corsOk_single_write _
            · rcases h5 : pySubscript rd "url" with e | uj
              · simp only [do_POST, h1, h2, h3, h4, h5]
                rw [corsOk_okHead_append, corsOk_err500]
              · rcases hg : generate_presigned_url_from_s3_url sign uj
                    (pyGetDefault rd "expires_in" (Json.num 3600)) with ⟨res, calls⟩
                rcases res with e | purl
                · simp only [do_POST, h1, h2, h3, h4, h5, hg]
                  rw [corsOk_okHead_append, corsOk_err500]
                · simp only [do_POST, h1, h2, h3, h4, h5, hg]
                  rw [corsOk_okHead_append]
                  exact corsOk_single_write _
  · simp [do_OPTIONS]
  · simp [do_OPTIONS]
